import Mathlib

set_option maxHeartbeats 1000000

namespace LibrarySearch

/-!  Shallow embedding of the library-search repository.

JavaScript strings are modelled as Lean `String`s (sequences of Unicode code
points); `Array.from(s)` iterates code points, so `Array.from(s).length` is
`s.data.length`.  The JavaScript whitespace class (used by `trim` and the
regexes `/\s+/`) is modelled by `Char.isWhitespace`.  -/

/-- Whitespace test used to model the JavaScript whitespace class. -/
def isWS (c : Char) : Bool := c.isWhitespace

/-- Model of JavaScript `String.prototype.trim`: drop whitespace from both ends. -/
def trimWS (l : List Char) : List Char :=
  ((l.dropWhile isWS).reverse.dropWhile isWS).reverse

/-- JavaScript `s.trim()` on strings. -/
def jsTrim (s : String) : String := ⟨trimWS s.data⟩

/-- Model of `s.replace(/\s+/g, repl)`: each maximal nonempty run of whitespace
is replaced by `repl`.  The boolean flag records whether the previous character
was part of a whitespace run already replaced. -/
def replaceWSRunsAux (repl : List Char) : Bool → List Char → List Char
  | _, [] => []
  | prevWS, c :: cs =>
    if isWS c then
      if prevWS then replaceWSRunsAux repl true cs
      else repl ++ replaceWSRunsAux repl true cs
    else c :: replaceWSRunsAux repl false cs

/-- Model of `s.replace(/\s+/g, repl)`. -/
def replaceWSRuns (repl : List Char) (l : List Char) : List Char :=
  replaceWSRunsAux repl false l

/-- Embedding of `normalizeText` from `src/src/lib/csv.js`:
`(s ?? "").toString().trim().toLowerCase().replace(/\s+/g, " ")`. -/
def normalizeText (s : String) : String :=
  ⟨replaceWSRuns [' '] ((trimWS s.data).map Char.toLower)⟩

/-- Embedding of `normalizeBase` from `src/unnamed/part_000`:
`(s ?? "").toString().trim().toLowerCase().replace(/\s+/g, " ")`. -/
def normalizeBase (s : String) : String :=
  ⟨replaceWSRuns [' '] ((trimWS s.data).map Char.toLower)⟩

/-- Embedding of `normalizeNoSpace` from `src/unnamed/part_000`:
`normalizeBase(s).replace(/\s+/g, "")`. -/
def normalizeNoSpace (s : String) : String :=
  ⟨replaceWSRuns [] (normalizeBase s).data⟩

/-- Embedding of `stripBom` from `src/src/lib/csv.js`: if the first code unit
is U+FEFF, drop it (the empty string is returned unchanged). -/
def stripBom (s : String) : String :=
  match s.data with
  | [] => s
  | c :: rest => if c = '\uFEFF' then ⟨rest⟩ else s

/-- Embedding of `normalizeHeader` from `src/src/lib/csv.js`:
`stripBom((h ?? "").toString()).trim().replace(/\s+/g, "")`. -/
def normalizeHeader (h : String) : String :=
  ⟨replaceWSRuns [] (trimWS (stripBom h).data)⟩

/-- Embedding of `countGraphemes` from `src/src/lib/csv.js`:
`Array.from((s ?? "").toString()).length` counts Unicode code points. -/
def countGraphemes (s : String) : Nat := s.data.length

/-- The blank-row test of `parseCSV`:
`row.some((v) => (v ?? "").toString().trim() !== "")`. -/
def rowNonBlank (r : List String) : Bool := r.any (fun v => jsTrim v != "")

/-- A completed row is appended to the output unless every field is blank. -/
def emitRow (r : List String) (rest : List (List String)) : List (List String) :=
  if rowNonBlank r then r :: rest else rest

/-- Embedding of the scanning loop of `parseCSV` from `src/src/lib/csv.js`.
Arguments: the `inQuotes` flag, the current field buffer, the current row
buffer, and the remaining input characters.  The two-character patterns model
the `i++` lookahead skips (escaped quote, CRLF). -/
def parseCSVAux : Bool → String → List String → List Char → List (List String)
  | _, field, row, [] => emitRow (row ++ [field]) []
  | true, field, row, '"' :: '"' :: rest => parseCSVAux true (field.push '"') row rest
  | true, field, row, '"' :: rest => parseCSVAux false field row rest
  | false, field, row, '"' :: rest => parseCSVAux true field row rest
  | false, field, row, ',' :: rest => parseCSVAux false "" (row ++ [field]) rest
  | false, field, row, '\r' :: '\n' :: rest => emitRow (row ++ [field]) (parseCSVAux false "" [] rest)
  | false, field, row, '\r' :: rest => emitRow (row ++ [field]) (parseCSVAux false "" [] rest)
  | false, field, row, '\n' :: rest => emitRow (row ++ [field]) (parseCSVAux false "" [] rest)
  | inQ, field, row, c :: rest => parseCSVAux inQ (field.push c) row rest

/-- Embedding of `parseCSV` from `src/src/lib/csv.js`. -/
def parseCSV (text : String) : List (List String) := parseCSVAux false "" [] text.data

/-! JS objects with string values, as insertion-ordered association lists with
unique keys: assignment `obj[k] = v` replaces in place or appends. -/

/-- A JS object with string-valued properties. -/
abbrev Record := List (String × String)

/-- Property assignment `o[k] = v`. -/
def objSet (o : Record) (k v : String) : Record :=
  if o.any (fun p => p.1 == k) then
    o.map (fun p => if p.1 == k then (k, v) else p)
  else o ++ [(k, v)]

/-- Property read `o[k]` (`none` models `undefined`). -/
def objGet? (o : Record) (k : String) : Option String :=
  (o.find? (fun p => p.1 == k)).map (fun p => p.2)

/-- The key used for column `i`: `headers[i] || \x7b`__col_$\x7bi\x7d`\x7d` —
the normalized header, or a positional placeholder when it is empty. -/
def keyForCol (headers : List String) (i : Nat) : String :=
  if headers.getD i "" = "" then "__col_" ++ toString i else headers.getD i ""

/-- The record built from data row `r` at data-row index `idx`: start from
`\x7b __id: `$\x7bidx\x7d` \x7d` and assign one property per header column
(the cell trimmed, missing trailing cells read as `""`). -/
def buildRecord (headers : List String) (idx : Nat) (r : List String) : Record :=
  (List.range headers.length).foldl
    (fun o i => objSet o (keyForCol headers i) (jsTrim (r.getD i "")))
    [("__id", toString idx)]

/-- Embedding of `rowsToObjects` from `src/src/lib/csv.js`. -/
def rowsToObjects : List (List String) → List Record
  | [] => []
  | headersRaw :: dataRows =>
    dataRows.enum.map (fun p => buildRecord (headersRaw.map normalizeHeader) p.1 p.2)

/-- JavaScript `s.includes(sub)`: substring containment. -/
def strIncludes (s sub : String) : Bool := decide (sub.data <:+: s.data)

/-- The mapped book objects both variants build from the records: the three
searched fields `서명` (title), `저자` (author), `출판사` (publisher) plus `id`. -/
structure Book where
  id : String
  title : String
  author : String
  publisher : String
deriving DecidableEq

/-- Property access `b[field]`: the JS lookup yields `undefined` for any other
key, which both filters coerce to the empty string. -/
def Book.fieldGet (b : Book) (f : String) : String :=
  if f = "서명" then b.title
  else if f = "저자" then b.author
  else if f = "출판사" then b.publisher
  else ""

/-- Embedding of `filtered` from `src/src/App.jsx` (strict variant):
normalize the submitted query, return `[]` when it is empty, otherwise keep the
books whose normalized selected field contains it. -/
def filteredStrict (books : List Book) (field subQ : String) : List Book :=
  let q := normalizeText subQ
  if q = "" then []
  else books.filter (fun b => strIncludes (normalizeText (b.fieldGet field)) q)

/-- The match predicate of `filtered` from `src/unnamed/part_000` (lenient
variant): `t.includes(q) || tNoSpace.includes(qNoSpace)`. -/
def matchesLenient (b : Book) (field subQ : String) : Bool :=
  strIncludes (normalizeBase (b.fieldGet field)) (normalizeBase subQ) ||
    strIncludes (normalizeNoSpace (b.fieldGet field)) (normalizeNoSpace subQ)

/-- Embedding of `filtered` from `src/unnamed/part_000` (lenient variant). -/
def filteredLenient (books : List Book) (field subQ : String) : List Book :=
  if normalizeBase subQ = "" then []
  else books.filter (fun b => matchesLenient b field subQ)

/-! State machines for the two `runSearch` handlers.  Only the state the
handlers read or write is modelled; `books` stands for the record list the
`filtered` memo reads (in the lenient variant, `cache[site] ?? []`). -/

/-- The component state of `src/src/App.jsx` relevant to searching. -/
structure StrictState where
  query : String
  submittedQuery : String
  error : String
  currentPage : Nat
  books : List Book
  selectedField : String
deriving DecidableEq

/-- Embedding of `runSearch` from `src/src/App.jsx`. -/
def runSearchStrict (s : StrictState) : StrictState :=
  let trimmed := jsTrim s.query
  if trimmed = "" then
    { s with error := "검색어를 입력해주세요.", submittedQuery := "", currentPage := 1 }
  else if trimmed.data.length < 2 then
    { s with error := "검색어는 공백을 제외하고 2글자 이상 입력해 주세요.",
             submittedQuery := "", currentPage := 1 }
  else
    { s with error := "", submittedQuery := trimmed, currentPage := 1 }

/-- The result list the strict variant displays: the `filtered` memo over the
current state. -/
def displayedStrict (s : StrictState) : List Book :=
  filteredStrict s.books s.selectedField s.submittedQuery

/-- The component state of `src/unnamed/part_000` relevant to searching. -/
structure LenientState where
  site : String
  query : String
  submittedQuery : String
  error : String
  loadError : String
  currentPage : Nat
  books : List Book
  selectedField : String
deriving DecidableEq

/-- Embedding of `runSearch` from `src/unnamed/part_000`.  The success branch
is modelled for an already-cached dataset, where `loadSiteBooksIfNeeded`
returns without effect; load failures are outside these claims. -/
def runSearchLenient (s : LenientState) : LenientState :=
  if s.site = "" then
    { s with error := "3단지/4단지를 먼저 선택해 주세요.", submittedQuery := "", currentPage := 1 }
  else if jsTrim s.query = "" then
    { s with error := "검색어를 입력해주세요.", submittedQuery := "", currentPage := 1 }
  else
    { s with loadError := "", error := "", submittedQuery := jsTrim s.query, currentPage := 1 }

/-- The result list the lenient variant displays. -/
def displayedLenient (s : LenientState) : List Book :=
  filteredLenient s.books s.selectedField s.submittedQuery

/-- A strict-variant state about to submit query `q`. -/
def mkStrictState (q : String) : StrictState :=
  { query := q, submittedQuery := "", error := "", currentPage := 1,
    books := [], selectedField := "서명" }

/-- Whether the strict variant accepts query `q`: `runSearch` leaves no
field-level error. -/
def strictQueryAccepted (q : String) : Bool :=
  (runSearchStrict (mkStrictState q)).error == ""

/-- Combining diacritical marks, U+0300–U+036F. -/
def isCombiningMark (c : Char) : Bool := 0x300 ≤ c.toNat && c.toNat ≤ 0x36F

/-- Modelled from the spec: the source has no grapheme segmentation, so
user-perceived characters are counted here for strings whose only
cluster-extending code points are combining diacritical marks
(U+0300–U+036F): a combining mark joins the preceding base character and
every other code point starts a new cluster. -/
def countGraphemeClusters (l : List Char) : Nat :=
  (l.filter (fun c => !(isCombiningMark c))).length

/-! Pagination, from `src/src/App.jsx` lines 124–131 (identical in
`src/unnamed/part_000`). -/

/-- `PAGE_SIZE` constant. -/
def PAGE_SIZE : Nat := 10

/-- `totalPages = Math.max(1, Math.ceil(totalResults / PAGE_SIZE))`, with the
ceiling division carried out on naturals. -/
def totalPages (totalResults : Nat) : Nat :=
  max 1 ((totalResults + PAGE_SIZE - 1) / PAGE_SIZE)

/-- `safePage = Math.min(Math.max(1, currentPage), totalPages)`. -/
def safePage (currentPage totalResults : Nat) : Nat :=
  min (max 1 currentPage) (totalPages totalResults)

/-- `pageItems = filtered.slice(start, start + PAGE_SIZE)` with
`start = (safePage - 1) * PAGE_SIZE`. -/
def pageItems (filtered : List Book) (currentPage : Nat) : List Book :=
  (filtered.drop ((safePage currentPage filtered.length - 1) * PAGE_SIZE)).take PAGE_SIZE

example : parseCSV "a,b\nc,d" = [["a", "b"], ["c", "d"]] := by decide

example : parseCSV "a,b\r\nc,d" = [["a", "b"], ["c", "d"]] := by decide

example : parseCSV "\"Doe, Jane\",Title,Pub" = [["Doe, Jane", "Title", "Pub"]] := by decide

example : parseCSV "\"He said \"\"hi\"\"\",A,B" = [["He said \"hi\"", "A", "B"]] := by decide

example : parseCSV "a,b\n, ,\nc,d" = [["a", "b"], ["c", "d"]] := by decide

example : normalizeHeader " Title Name " = "TitleName" := by decide

example : normalizeText " foo   bar " = "foo bar" := by decide

example : normalizeNoSpace "Foo  Bar" = "foobar" := by decide

/-- The validation-failure condition of the strict `runSearch`: empty after
trimming, or fewer than two code points after trimming. -/
abbrev failsStrictValidation (s : StrictState) : Prop :=
  jsTrim s.query = "" ∨ (jsTrim s.query).data.length < 2

/-- The validation-failure condition of the lenient `runSearch`: no dataset
(site) selected, or the query is empty after trimming. -/
abbrev failsLenientValidation (s : LenientState) : Prop :=
  s.site = "" ∨ jsTrim s.query = ""

/-! Helper lemmas about the whitespace machinery. -/

lemma replaceWSRunsAux_nil_eq (b : Bool) (l : List Char) :
    replaceWSRunsAux [] b l = l.filter (fun c => !(isWS c)) := by
  induction l generalizing b with
  | nil => rfl
  | cons c cs ih => cases h : isWS c <;> simp [replaceWSRunsAux, h, ih]

lemma filter_dropWhile_ws (l : List Char) :
    (l.dropWhile isWS).filter (fun c => !(isWS c)) = l.filter (fun c => !(isWS c)) := by
  induction l with
  | nil => rfl
  | cons c cs ih => cases h : isWS c <;> simp [List.dropWhile_cons, h, ih]

lemma filter_trimWS_eq (l : List Char) :
    (trimWS l).filter (fun c => !(isWS c)) = l.filter (fun c => !(isWS c)) := by
  unfold trimWS
  rw [List.filter_reverse, filter_dropWhile_ws, List.filter_reverse, List.reverse_reverse,
    filter_dropWhile_ws]

lemma normalizeNoSpace_data (s : String) :
    (normalizeNoSpace s).data = (normalizeBase s).data.filter (fun c => !(isWS c)) := by
  show replaceWSRuns [] (normalizeBase s).data = _
  unfold replaceWSRuns
  exact replaceWSRunsAux_nil_eq false _

lemma strIncludes_iff (s sub : String) : strIncludes s sub = true ↔ sub.data <:+: s.data := by
  simp [strIncludes]

lemma infix_filter_ws {l1 l2 : List Char} (h : l1 <:+: l2) :
    l1.filter (fun c => !(isWS c)) <:+: l2.filter (fun c => !(isWS c)) := by
  rcases h with ⟨u, v, rfl⟩
  exact ⟨u.filter (fun c => !(isWS c)), v.filter (fun c => !(isWS c)), by simp⟩

/-- C8: header normalization strips a leading byte-order-mark, trims, and
removes ALL internal whitespace rather than collapsing it: the result is
exactly the non-whitespace characters of the BOM-stripped cell, and the cell
` Title Name ` (with or without a leading BOM) normalizes to `TitleName`. -/
theorem C8_header_normalization :
    (∀ h : String, (normalizeHeader h).data = (stripBom h).data.filter (fun c => !(isWS c)))
    ∧ normalizeHeader " Title Name " = "TitleName"
    ∧ normalizeHeader "\uFEFF Title Name " = "TitleName" := by
  refine ⟨fun h => ?_, by decide, by decide⟩
  show replaceWSRuns [] (trimWS (stripBom h).data) = _
  unfold replaceWSRuns
  rw [replaceWSRunsAux_nil_eq, filter_trimWS_eq]

/-- C9: `normalizeText` (the strict variant) and `normalizeBase` (the lenient
variant) are the same normalization — trim, lowercase, collapse whitespace
runs; the strict filter applies it to both the query and the candidate before
the containment test, and the query ` foo   bar ` matches the candidate
`FOO BAR`. -/
theorem C9_normalize_and_filter :
    (∀ s : String, normalizeText s = normalizeBase s)
    ∧ (∀ (books : List Book) (field q : String) (b : Book), normalizeText q ≠ "" →
        (b ∈ filteredStrict books field q ↔
          b ∈ books ∧ strIncludes (normalizeText (b.fieldGet field)) (normalizeText q) = true))
    ∧ normalizeText " foo   bar " = "foo bar"
    ∧ normalizeText "FOO BAR" = "foo bar"
    ∧ strIncludes (normalizeText "FOO BAR") (normalizeText " foo   bar ") = true := by
  refine ⟨fun s => rfl, fun books field q b hq => ?_, by decide, by decide, by decide⟩
  simp [filteredStrict, hq, List.mem_filter]

/-- Witness for C9 at a concrete input. -/
theorem C9_witness :
    normalizeText " foo   bar " ≠ "" ∧
    (⟨"0", "FOO BAR", "", ""⟩ : Book) ∈
      filteredStrict [⟨"0", "FOO BAR", "", ""⟩] "서명" " foo   bar " := by
  refine ⟨by decide, ?_⟩
  exact (C9_normalize_and_filter.2.1 [⟨"0", "FOO BAR", "", ""⟩] "서명" " foo   bar "
    ⟨"0", "FOO BAR", "", ""⟩ (by decide)).mpr ⟨by simp, by decide⟩

/-- C6: in the lenient mode a record with a non-empty query matches exactly
when the space-collapsed normalized candidate contains the space-collapsed
normalized query OR the space-stripped forms are containment-matched; the
query `foobar` matches the candidate `foo bar` through the no-space variant
(and not through the collapsed one). -/
theorem C6_lenient_match :
    (∀ (books : List Book) (field q : String) (b : Book), normalizeBase q ≠ "" →
        (b ∈ filteredLenient books field q ↔
          b ∈ books ∧
            (strIncludes (normalizeBase (b.fieldGet field)) (normalizeBase q) = true ∨
              strIncludes (normalizeNoSpace (b.fieldGet field)) (normalizeNoSpace q) = true)))
    ∧ matchesLenient ⟨"0", "foo bar", "", ""⟩ "서명" "foobar" = true
    ∧ strIncludes (normalizeBase "foo bar") (normalizeBase "foobar") = false := by
  refine ⟨fun books field q b hq => ?_, by decide, by decide⟩
  simp [filteredLenient, hq, List.mem_filter, matchesLenient, Bool.or_eq_true]

/-- Witness for C6 at a concrete input. -/
theorem C6_witness :
    normalizeBase "foobar" ≠ "" ∧
    ((⟨"0", "foo bar", "", ""⟩ : Book) ∈
        filteredLenient [⟨"0", "foo bar", "", ""⟩] "서명" "foobar" ↔
      (⟨"0", "foo bar", "", ""⟩ : Book) ∈ [(⟨"0", "foo bar", "", ""⟩ : Book)] ∧
        (strIncludes (normalizeBase ((⟨"0", "foo bar", "", ""⟩ : Book).fieldGet "서명"))
            (normalizeBase "foobar") = true ∨
          strIncludes (normalizeNoSpace ((⟨"0", "foo bar", "", ""⟩ : Book).fieldGet "서명"))
            (normalizeNoSpace "foobar") = true)) :=
  ⟨by decide, C6_lenient_match.1 [⟨"0", "foo bar", "", ""⟩] "서명" "foobar"
    ⟨"0", "foo bar", "", ""⟩ (by decide)⟩

/-- C7: collapsed-containment implies no-space-containment (removing all
whitespace is an append-homomorphism, so it preserves substring containment),
hence the lenient disjunctive match is equivalent to the space-stripped
containment check alone. -/
theorem C7_nospace_subsumes :
    (∀ t q : String, (normalizeBase q).data <:+: (normalizeBase t).data →
        (normalizeNoSpace q).data <:+: (normalizeNoSpace t).data)
    ∧ (∀ (b : Book) (field q : String),
        matchesLenient b field q =
          strIncludes (normalizeNoSpace (b.fieldGet field)) (normalizeNoSpace q)) := by
  have main : ∀ t q : String, (normalizeBase q).data <:+: (normalizeBase t).data →
      (normalizeNoSpace q).data <:+: (normalizeNoSpace t).data := by
    intro t q h
    rw [normalizeNoSpace_data, normalizeNoSpace_data]
    exact infix_filter_ws h
  refine ⟨main, fun b field q => ?_⟩
  unfold matchesLenient
  cases h2 : strIncludes (normalizeNoSpace (b.fieldGet field)) (normalizeNoSpace q) with
  | true => simp [h2]
  | false =>
    cases h1 : strIncludes (normalizeBase (b.fieldGet field)) (normalizeBase q) with
    | false => simp [h1, h2]
    | true =>
      exfalso
      have h3 := main (b.fieldGet field) q ((strIncludes_iff _ _).mp h1)
      rw [← strIncludes_iff] at h3
      rw [h2] at h3
      exact Bool.false_ne_true h3

/-- Witness for C7 at a concrete input. -/
theorem C7_witness :
    (normalizeBase "oo b").data <:+: (normalizeBase "foo bar").data ∧
    (normalizeNoSpace "oo b").data <:+: (normalizeNoSpace "foo bar").data :=
  ⟨by decide, C7_nospace_subsumes.1 "foo bar" "oo b" (by decide)⟩

/-- C10: pagination with page size 10 computes totalPages as the ceiling of
count/10 but at least 1, clamps the requested page into [1, totalPages]
without erroring, and returns the slice starting at (effectivePage-1)*10 of
at most 10 elements; 23 results give 3 pages, and requested pages 0 and 99
clamp to 1 and 3. -/
theorem C10_pagination :
    (∀ (l : List Book) (p : Nat),
        (1 ≤ safePage p l.length ∧ safePage p l.length ≤ totalPages l.length)
        ∧ (max 1 l.length ≤ PAGE_SIZE * totalPages l.length
            ∧ PAGE_SIZE * (totalPages l.length - 1) < max 1 l.length)
        ∧ (pageItems l p).length ≤ PAGE_SIZE
        ∧ (∀ i, i < PAGE_SIZE →
            (pageItems l p)[i]? = l[(safePage p l.length - 1) * PAGE_SIZE + i]?))
    ∧ totalPages 23 = 3 ∧ safePage 0 23 = 1 ∧ safePage 99 23 = 3 := by
  refine ⟨fun l p => ⟨?_, ?_, ?_, fun i hi => ?_⟩, by decide, by decide, by decide⟩
  · unfold safePage totalPages PAGE_SIZE
    omega
  · unfold totalPages PAGE_SIZE
    omega
  · unfold pageItems
    simp [List.length_take]
  · unfold pageItems
    rw [List.getElem?_take_of_lt hi, List.getElem?_drop]

/-- Witness for C10 at a concrete input. -/
theorem C10_witness :
    2 < PAGE_SIZE ∧
    (pageItems (List.replicate 23 (⟨"0", "t", "a", "p"⟩ : Book)) 99)[2]? =
      (List.replicate 23 (⟨"0", "t", "a", "p"⟩ : Book))[(safePage 99
        (List.replicate 23 (⟨"0", "t", "a", "p"⟩ : Book)).length - 1) * PAGE_SIZE + 2]? :=
  ⟨by decide, (C10_pagination.1 (List.replicate 23 ⟨"0", "t", "a", "p"⟩) 99).2.2.2 2 (by decide)⟩

/-- C1 fails as stated: the strict-mode minimum-length check counts Unicode
code points (`Array.from(trimmed).length`), not grapheme clusters — the
single-glyph query `e` followed by the combining acute accent U+0301 has one
user-perceived character but is accepted by the check. -/
theorem C1_counterexample :
    ¬ (∀ q : String, strictQueryAccepted q = true ↔
        2 ≤ countGraphemeClusters (jsTrim q).data) := by
  intro hcl
  have h := (hcl ⟨['e', '\u0301']⟩).mp (by decide)
  exact absurd h (by decide)

/-- C1 amended: the strict-mode minimum-length check counts the trimmed query
in Unicode code points, so multi-code-unit characters count once; every query
of at least two grapheme clusters is accepted (clusters never exceed code
points), but a combining mark counts as an extra unit rather than once with
its base. -/
theorem C1_min_length_code_points :
    ∀ q : String,
      (strictQueryAccepted q = true ↔ 2 ≤ (jsTrim q).data.length)
      ∧ (2 ≤ countGraphemeClusters (jsTrim q).data → strictQueryAccepted q = true) := by
  intro q
  have hc : countGraphemeClusters (jsTrim q).data ≤ (jsTrim q).data.length :=
    List.length_filter_le _ _
  have hacc : strictQueryAccepted q = true ↔ 2 ≤ (jsTrim q).data.length := by
    unfold strictQueryAccepted runSearchStrict mkStrictState
    by_cases h1 : jsTrim q = ""
    · rw [if_pos h1]
      constructor
      · intro hfalse
        exact absurd hfalse
          (by decide : ¬((("검색어를 입력해주세요." : String) == "") = true))
      · intro hge
        rw [h1] at hge
        exact absurd hge (by decide)
    · rw [if_neg h1]
      by_cases h2 : (jsTrim q).data.length < 2
      · rw [if_pos h2]
        constructor
        · intro hfalse
          exact absurd hfalse
            (by decide :
              ¬((("검색어는 공백을 제외하고 2글자 이상 입력해 주세요." : String) == "") = true))
        · intro hge
          omega
      · rw [if_neg h2]
        constructor
        · intro htrue
          omega
        · intro hge
          exact (by decide : ((("" : String) == "") = true))
  exact ⟨hacc, fun h => hacc.mpr (le_trans h hc)⟩

/-- Witness for C1 at a concrete input: a two-glyph query of two non-BMP code
points (each stored as two UTF-16 code units) is accepted. -/
theorem C1_witness :
    2 ≤ countGraphemeClusters (jsTrim "👍👍").data ∧ strictQueryAccepted "👍👍" = true :=
  ⟨by decide, (C1_min_length_code_points "👍👍").2 (by decide)⟩

/-- C2 fails as stated: a submitted query that fails validation does NOT leave
the previously shown result set unchanged — `runSearch` clears the submitted
query, so the displayed results become empty.  Concretely, with one shown
result for the submitted query `ab`, submitting the too-short query `a` sets a
field-level error and empties the displayed results. -/
theorem C2_counterexample :
    ¬ (∀ s : StrictState, displayedStrict s ≠ [] → failsStrictValidation s →
        displayedStrict (runSearchStrict s) = displayedStrict s) := by
  intro hcl
  have h := hcl
      { query := "a", submittedQuery := "ab", error := "", currentPage := 1,
        books := [⟨"0", "ab", "x", "y"⟩], selectedField := "서명" }
      (by decide) (by decide)
  exact absurd h (by decide)

/-- C2 amended: in both variants, a submitted query that fails validation
(empty after trimming, below the strict minimum length, or no dataset selected
when required) produces a field-level error, clears the submitted query, and
thereby empties the displayed result set (it does NOT preserve previously
shown results). -/
theorem C2_failed_validation_clears_results :
    (∀ s : StrictState, failsStrictValidation s →
        (runSearchStrict s).error ≠ "" ∧ (runSearchStrict s).submittedQuery = "" ∧
          displayedStrict (runSearchStrict s) = [])
    ∧ (∀ s : LenientState, failsLenientValidation s →
        (runSearchLenient s).error ≠ "" ∧ (runSearchLenient s).submittedQuery = "" ∧
          displayedLenient (runSearchLenient s) = []) := by
  constructor
  · intro s hs
    unfold runSearchStrict
    by_cases h1 : jsTrim s.query = ""
    · rw [if_pos h1]
      exact ⟨(by decide : ("검색어를 입력해주세요." : String) ≠ ""), rfl, rfl⟩
    · have h2 : (jsTrim s.query).data.length < 2 := by
        rcases hs with h | h
        · exact absurd h h1
        · exact h
      rw [if_neg h1, if_pos h2]
      exact ⟨(by decide : ("검색어는 공백을 제외하고 2글자 이상 입력해 주세요." : String) ≠ ""), rfl, rfl⟩
  · intro s hs
    unfold runSearchLenient
    by_cases h1 : s.site = ""
    · rw [if_pos h1]
      exact ⟨(by decide : ("3단지/4단지를 먼저 선택해 주세요." : String) ≠ ""), rfl, rfl⟩
    · have h2 : jsTrim s.query = "" := by
        rcases hs with h | h
        · exact absurd h h1
        · exact h
      rw [if_neg h1, if_pos h2]
      exact ⟨(by decide : ("검색어를 입력해주세요." : String) ≠ ""), rfl, rfl⟩

/-- Witness for C2 at concrete states. -/
theorem C2_witness :
    (failsStrictValidation
        { query := " ", submittedQuery := "ab", error := "", currentPage := 1,
          books := [⟨"0", "ab", "x", "y"⟩], selectedField := "서명" } ∧
      displayedStrict (runSearchStrict
        { query := " ", submittedQuery := "ab", error := "", currentPage := 1,
          books := [⟨"0", "ab", "x", "y"⟩], selectedField := "서명" }) = [])
    ∧ (failsLenientValidation
        { site := "", query := "ab", submittedQuery := "ab", error := "", loadError := "",
          currentPage := 1, books := [⟨"0", "ab", "x", "y"⟩], selectedField := "서명" } ∧
      displayedLenient (runSearchLenient
        { site := "", query := "ab", submittedQuery := "ab", error := "", loadError := "",
          currentPage := 1, books := [⟨"0", "ab", "x", "y"⟩], selectedField := "서명" }) = []) :=
  ⟨⟨by decide, (C2_failed_validation_clears_results.1
      { query := " ", submittedQuery := "ab", error := "", currentPage := 1,
        books := [⟨"0", "ab", "x", "y"⟩], selectedField := "서명" } (by decide)).2.2⟩,
    ⟨by decide, (C2_failed_validation_clears_results.2
      { site := "", query := "ab", submittedQuery := "ab", error := "", loadError := "",
        currentPage := 1, books := [⟨"0", "ab", "x", "y"⟩], selectedField := "서명" }
      (by decide)).2.2⟩⟩

/-! Helper lemmas for the CSV parser and record objects. -/

lemma mem_emitRow {r rr : List String} {rest : List (List String)} (h : r ∈ emitRow rr rest) :
    (r = rr ∧ rowNonBlank rr = true) ∨ r ∈ rest := by
  unfold emitRow at h
  by_cases hb : rowNonBlank rr = true
  · rw [if_pos hb] at h
    rcases List.mem_cons.mp h with h | h
    · exact Or.inl ⟨h, hb⟩
    · exact Or.inr h
  · rw [if_neg hb] at h
    exact Or.inr h

lemma parseCSVAux_no_blank :
    ∀ (inQ : Bool) (f : String) (row : List String) (cs : List Char),
      ∀ r ∈ parseCSVAux inQ f row cs, rowNonBlank r = true := by
  intro inQ f row cs
  induction inQ, f, row, cs using parseCSVAux.induct with
  | case1 x field row =>
    intro r hr
    simp only [parseCSVAux] at hr
    rcases mem_emitRow hr with ⟨rfl, hb⟩ | h
    · exact hb
    · cases h
  | case2 field row rest ih =>
    intro r hr
    simp only [parseCSVAux] at hr
    exact ih r hr
  | case3 field row rest hne ih =>
    intro r hr
    simp only [parseCSVAux] at hr
    exact ih r hr
  | case4 field row rest ih =>
    intro r hr
    simp only [parseCSVAux] at hr
    exact ih r hr
  | case5 field row rest ih =>
    intro r hr
    simp only [parseCSVAux] at hr
    exact ih r hr
  | case6 field row rest ih =>
    intro r hr
    simp only [parseCSVAux] at hr
    rcases mem_emitRow hr with ⟨rfl, hb⟩ | h
    · exact hb
    · exact ih r h
  | case7 field row rest hne ih =>
    intro r hr
    simp only [parseCSVAux] at hr
    rcases mem_emitRow hr with ⟨rfl, hb⟩ | h
    · exact hb
    · exact ih r h
  | case8 field row rest ih =>
    intro r hr
    simp only [parseCSVAux] at hr
    rcases mem_emitRow hr with ⟨rfl, hb⟩ | h
    · exact hb
    · exact ih r h
  | case9 inQ field row c rest h1 h2 h3 h4 h5 h6 h7 ih =>
    intro r hr
    simp only [parseCSVAux] at hr
    exact ih r hr

lemma parseCSVAux_true_push (f : String) (row : List String) (c : Char) (cs : List Char)
    (hq : c ≠ '"') :
    parseCSVAux true f row (c :: cs) = parseCSVAux true (f.push c) row cs := by
  conv_lhs => rw [parseCSVAux.eq_def]
  split <;> simp_all

lemma parseCSVAux_quote_open (f : String) (row : List String) (cs : List Char) :
    parseCSVAux false f row ('"' :: cs) = parseCSVAux true f row cs := by
  conv_lhs => rw [parseCSVAux.eq_def]
  split <;> try simp_all
  rename_i heq h1 h2 h3 h4
  exact absurd heq.1.symm h1

lemma parseCSVAux_quote_close (f : String) (row : List String) (c : Char) (cs : List Char)
    (hc : c ≠ '"') :
    parseCSVAux true f row ('"' :: c :: cs) = parseCSVAux false f row (c :: cs) := by
  conv_lhs => rw [parseCSVAux.eq_def]
  split <;> try simp_all
  rename_i heq hne
  exact absurd heq.1.symm hne

lemma scan_quoted (s : List Char) (f : String) (row : List String) (rest : List Char)
    (hq : '"' ∉ s) :
    parseCSVAux true f row (s ++ rest) = parseCSVAux true ⟨f.data ++ s⟩ row rest := by
  induction s generalizing f with
  | nil => simp
  | cons c cs ih =>
    have hc : c ≠ '"' := by
      intro h
      rw [h] at hq
      exact hq (List.mem_cons_self _ _)
    have hq2 : '"' ∉ cs := fun h => hq (List.mem_cons_of_mem _ h)
    rw [List.cons_append, parseCSVAux_true_push f row c (cs ++ rest) hc, ih (f.push c) hq2]
    have hdata : (f.push c).data ++ cs = f.data ++ c :: cs := by
      simp [String.push]
    rw [hdata]

lemma C4_general (s : List Char) (hq : '"' ∉ s) :
    parseCSV ⟨'"' :: (s ++ ('"' :: ",A,B".data))⟩ = [[⟨s⟩, "A", "B"]] := by
  show parseCSVAux false "" [] ('"' :: (s ++ ('"' :: ",A,B".data))) = _
  rw [parseCSVAux_quote_open, scan_quoted s "" [] _ hq]
  rw [show (("" : String).data ++ s) = s from by simp]
  rw [show (('"' :: ",A,B".data) : List Char) = '"' :: ',' :: 'A' :: ',' :: 'B' :: [] from rfl]
  rw [parseCSVAux_quote_close _ _ _ _ (by decide)]
  show emitRow [⟨s⟩, "A", "B"] [] = [[⟨s⟩, "A", "B"]]
  have hnb : rowNonBlank [⟨s⟩, "A", "B"] = true := by
    unfold rowNonBlank
    simp only [List.any_cons, List.any_nil]
    rw [show (jsTrim "A" != "") = true from by decide]
    simp
  unfold emitRow
  rw [if_pos hnb]

lemma find?_map_set (o : Record) (k v : String) (h : o.any (fun p => p.1 == k) = true) :
    objGet? (o.map (fun p => if p.1 == k then (k, v) else p)) k = some v := by
  induction o with
  | nil => simp at h
  | cons p ps ih =>
    by_cases hp : (p.1 == k) = true
    · simp only [List.map_cons, if_pos hp]
      unfold objGet?
      rw [List.find?_cons_of_pos (p := fun x : String × String => x.1 == k) _ (by simp)]
      rfl
    · simp only [List.map_cons, if_neg hp]
      unfold objGet?
      rw [List.find?_cons_of_neg (p := fun x : String × String => x.1 == k) _ hp]
      have h2 : ps.any (fun p => p.1 == k) = true := by
        rcases List.any_eq_true.mp h with ⟨x, hx, hxk⟩
        rcases List.mem_cons.mp hx with rfl | hx2
        · exact absurd hxk hp
        · exact List.any_eq_true.mpr ⟨x, hx2, hxk⟩
      exact ih h2

lemma find?_append_single_none (o : Record) (k v : String)
    (h : ∀ p ∈ o, (p.1 == k) = false) :
    ((o ++ [(k, v)]).find? (fun p => p.1 == k)).map (fun p => p.2) = some v := by
  induction o with
  | nil =>
    rw [List.nil_append, List.find?_cons_of_pos (p := fun x : String × String => x.1 == k) _ (by simp)]
    rfl
  | cons p ps ih =>
    rw [List.cons_append, List.find?_cons_of_neg (p := fun x : String × String => x.1 == k) _
      (by simp [h p (List.mem_cons_self p ps)])]
    exact ih (fun x hx => h x (List.mem_cons_of_mem p hx))

lemma objGet?_objSet_same (o : Record) (k v : String) :
    objGet? (objSet o k v) k = some v := by
  unfold objSet
  by_cases h : o.any (fun p => p.1 == k) = true
  · rw [if_pos h]
    exact find?_map_set o k v h
  · rw [if_neg h]
    unfold objGet?
    apply find?_append_single_none
    intro p hp
    cases hbe : (p.1 == k) with
    | false => rfl
    | true => exact absurd (List.any_eq_true.mpr ⟨p, hp, hbe⟩) h

lemma find?_map_set_ne (o : Record) (k v k2 : String) (hne : k2 ≠ k) :
    (o.map (fun p => if p.1 == k then (k, v) else p)).find? (fun p => p.1 == k2) =
      o.find? (fun p => p.1 == k2) := by
  have hkk2 : ¬((k : String) == k2) = true := by
    simp only [beq_iff_eq]
    exact fun hcontra => hne hcontra.symm
  induction o with
  | nil => rfl
  | cons p ps ih =>
    by_cases hp : (p.1 == k) = true
    · have hpk : p.1 = k := by simpa using hp
      simp only [List.map_cons, if_pos hp]
      rw [List.find?_cons_of_neg (p := fun x : String × String => x.1 == k2) _ hkk2,
        List.find?_cons_of_neg (p := fun x : String × String => x.1 == k2) _
          (by show ¬(p.1 == k2) = true; rw [hpk]; exact hkk2)]
      exact ih
    · simp only [List.map_cons, if_neg hp]
      by_cases hp2 : (p.1 == k2) = true
      · rw [List.find?_cons_of_pos (p := fun x : String × String => x.1 == k2) _ hp2,
          List.find?_cons_of_pos (p := fun x : String × String => x.1 == k2) _ hp2]
      · rw [List.find?_cons_of_neg (p := fun x : String × String => x.1 == k2) _ hp2,
          List.find?_cons_of_neg (p := fun x : String × String => x.1 == k2) _ hp2, ih]

lemma find?_append_single_ne (o : Record) (k v k2 : String) (hne : k2 ≠ k) :
    (o ++ [(k, v)]).find? (fun p => p.1 == k2) = o.find? (fun p => p.1 == k2) := by
  have hkk2 : ¬((k : String) == k2) = true := by
    simp only [beq_iff_eq]
    exact fun hcontra => hne hcontra.symm
  induction o with
  | nil =>
    rw [List.nil_append, List.find?_cons_of_neg (p := fun x : String × String => x.1 == k2) _ hkk2]
  | cons p ps ih =>
    by_cases hp2 : (p.1 == k2) = true
    · rw [List.cons_append, List.find?_cons_of_pos (p := fun x : String × String => x.1 == k2) _ hp2,
        List.find?_cons_of_pos (p := fun x : String × String => x.1 == k2) _ hp2]
    · rw [List.cons_append, List.find?_cons_of_neg (p := fun x : String × String => x.1 == k2) _ hp2,
        List.find?_cons_of_neg (p := fun x : String × String => x.1 == k2) _ hp2, ih]

lemma objGet?_objSet_ne (o : Record) (k v k2 : String) (hne : k2 ≠ k) :
    objGet? (objSet o k v) k2 = objGet? o k2 := by
  unfold objSet objGet?
  by_cases h : o.any (fun p => p.1 == k) = true
  · rw [if_pos h, find?_map_set_ne o k v k2 hne]
  · rw [if_neg h, find?_append_single_ne o k v k2 hne]

lemma foldRange_objGet_skip (key val : Nat → String) (o0 : Record) (n : Nat) (k : String)
    (h : ∀ i, i < n → key i ≠ k) :
    objGet? ((List.range n).foldl (fun o i => objSet o (key i) (val i)) o0) k = objGet? o0 k := by
  induction n with
  | zero => rfl
  | succ m ih =>
    rw [List.range_succ, List.foldl_append]
    simp only [List.foldl_cons, List.foldl_nil]
    rw [objGet?_objSet_ne _ _ _ _ (Ne.symm (h m (Nat.lt_succ_self m)))]
    exact ih (fun i hi => h i (by omega))

lemma foldRange_objGet_last (key val : Nat → String) (o0 : Record) (n i0 : Nat) (k : String)
    (hi0 : i0 < n) (hk : key i0 = k) (hafter : ∀ i, i0 < i → i < n → key i ≠ k) :
    objGet? ((List.range n).foldl (fun o i => objSet o (key i) (val i)) o0) k =
      some (val i0) := by
  induction n with
  | zero => omega
  | succ m ih =>
    rw [List.range_succ, List.foldl_append]
    simp only [List.foldl_cons, List.foldl_nil]
    by_cases him : i0 = m
    · subst him
      rw [← hk]
      exact objGet?_objSet_same _ _ _
    · rw [objGet?_objSet_ne _ _ _ _ (Ne.symm (hafter m (by omega) (by omega)))]
      exact ih (by omega) (fun i h1 h2 => hafter i h1 (by omega))

/-- C5: a line terminator outside quotes ends the row (CRLF consumed as one
terminator) and the ended row is kept only if some field is non-blank after
trimming: no output row is ever fully blank, CRLF and LF inputs parse alike,
and a line of only commas and whitespace contributes no row. -/
theorem C5_line_termination_and_blank_rows :
    (∀ text : String, ∀ r ∈ parseCSV text, ∃ fld ∈ r, jsTrim fld ≠ "")
    ∧ parseCSV "a,b\r\nc,d" = [["a", "b"], ["c", "d"]]
    ∧ parseCSV "a,b\nc,d" = [["a", "b"], ["c", "d"]]
    ∧ parseCSV "a,b\n, ,\nc,d" = [["a", "b"], ["c", "d"]]
    ∧ parseCSV ", ," = [] := by
  refine ⟨fun text r hr => ?_, by decide, by decide, by decide, by decide⟩
  have h := parseCSVAux_no_blank false "" [] text.data r hr
  rcases List.any_eq_true.mp h with ⟨fld, hmem, hne⟩
  exact ⟨fld, hmem, by simpa using hne⟩

/-- Witness for C5 at a concrete input. -/
theorem C5_witness :
    (["a", "b"] ∈ parseCSV "a,b\nc,d") ∧ ∃ fld ∈ ["a", "b"], jsTrim fld ≠ "" :=
  ⟨by decide, C5_line_termination_and_blank_rows.1 "a,b\nc,d" ["a", "b"] (by decide)⟩

/-- C4: inside quotes a doubled quote is one literal quote and any other
characters, commas and line breaks included, are kept in one field: a quoted
field of arbitrary quote-free content followed by `,A,B` parses as three
fields with the content unsplit; the line `"Doe, Jane",Title,Pub` parses to
the fields `Doe, Jane` / `Title` / `Pub`, and the first field of the
doubled-quote line parses to `He said "hi"`. -/
theorem C4_quote_handling :
    (∀ s : List Char, '"' ∉ s →
        parseCSV ⟨'"' :: (s ++ ('"' :: ",A,B".data))⟩ = [[⟨s⟩, "A", "B"]])
    ∧ parseCSV "\"Doe, Jane\",Title,Pub" = [["Doe, Jane", "Title", "Pub"]]
    ∧ parseCSV "\"He said \"\"hi\"\"\",A,B" = [["He said \"hi\"", "A", "B"]] := by
  refine ⟨fun s hq => C4_general s hq, by decide, by decide⟩

/-- Witness for C4 at a concrete input whose quoted field holds a comma and a
line break. -/
theorem C4_witness :
    ('"' ∉ ("x,y\nz".data : List Char)) ∧
    parseCSV ⟨'"' :: (("x,y\nz".data) ++ ('"' :: ",A,B".data))⟩ =
      [[⟨"x,y\nz".data⟩, "A", "B"]] :=
  ⟨by decide, C4_quote_handling.1 "x,y\nz".data (by decide)⟩

/-- C3: with pairwise-distinct column keys none of which is `__id`, every data
row yields a record whose `__id` is the stringified zero-based data-row index
and whose value at each column key is the trimmed raw cell, the empty string
for cells missing from a short row; when a normalized header is non-empty the
column key is exactly that normalized header. -/
theorem C3_rows_to_records :
    ∀ (headersRaw : List String) (dataRows : List (List String)),
      (∀ i1 i2, i1 < headersRaw.length → i2 < headersRaw.length →
          keyForCol (headersRaw.map normalizeHeader) i1 =
            keyForCol (headersRaw.map normalizeHeader) i2 → i1 = i2) →
      (∀ i, i < headersRaw.length →
          keyForCol (headersRaw.map normalizeHeader) i ≠ "__id") →
      (rowsToObjects (headersRaw :: dataRows)).length = dataRows.length
      ∧ (∀ i, i < headersRaw.length → normalizeHeader (headersRaw.getD i "") ≠ "" →
          keyForCol (headersRaw.map normalizeHeader) i = normalizeHeader (headersRaw.getD i ""))
      ∧ (∀ (j : Nat) (rec : Record), (rowsToObjects (headersRaw :: dataRows))[j]? = some rec →
          objGet? rec "__id" = some (toString j)
          ∧ ∀ (r : List String), dataRows[j]? = some r →
              ∀ i, i < headersRaw.length →
                objGet? rec (keyForCol (headersRaw.map normalizeHeader) i) =
                  some (jsTrim (r.getD i ""))) := by
  intro headersRaw dataRows hinj hid
  have hlen : (headersRaw.map normalizeHeader).length = headersRaw.length :=
    List.length_map _ _
  refine ⟨?_, ?_, ?_⟩
  · show (dataRows.enum.map _).length = _
    rw [List.length_map, List.enum_length]
  · intro i hi hne
    unfold keyForCol
    have hgd : (headersRaw.map normalizeHeader).getD i "" =
        normalizeHeader (headersRaw.getD i "") := by
      rw [List.getD_eq_getElem?_getD, List.getElem?_map, List.getD_eq_getElem?_getD,
        List.getElem?_eq_getElem hi]
      rfl
    rw [hgd, if_neg hne]
  · intro j rec hrec
    unfold rowsToObjects at hrec
    rw [List.getElem?_map, List.getElem?_enum] at hrec
    cases hdr : dataRows[j]? with
    | none =>
      rw [hdr] at hrec
      simp at hrec
    | some r =>
      rw [hdr] at hrec
      simp at hrec
      subst hrec
      constructor
      · unfold buildRecord
        rw [foldRange_objGet_skip]
        · rw [show objGet? [("__id", toString j)] "__id" =
              ((List.find? (fun p => p.1 == "__id") [("__id", toString j)]).map
                (fun p => p.2)) from rfl]
          rw [List.find?_cons_of_pos (p := fun x : String × String => x.1 == "__id") _
            (by show (("__id" : String) == "__id") = true; decide)]
          rfl
        · intro i hi2
          exact hid i (by rw [hlen] at hi2; exact hi2)
      · intro r2 hr2 i hi
        injection hr2 with hr2
        subst hr2
        unfold buildRecord
        refine foldRange_objGet_last _ _ _ _ i _ ?_ rfl ?_
        · rw [hlen]
          exact hi
        · intro i2 h1 h2 hkeq
          have h3 := hinj i2 i (by rw [hlen] at h2; exact h2) hi hkeq
          omega

/-- Witness for C3 at a concrete input: two header cells, one data row `[x]`
shorter than the header. -/
theorem C3_witness :
    objGet? ((rowsToObjects [[" Title ", "Author"], ["x"]]).getD 0 []) "__id" =
      some (toString 0)
    ∧ objGet? ((rowsToObjects [[" Title ", "Author"], ["x"]]).getD 0 [])
        (keyForCol ([" Title ", "Author"].map normalizeHeader) 0) =
      some (jsTrim (["x"].getD 0 ""))
    ∧ objGet? ((rowsToObjects [[" Title ", "Author"], ["x"]]).getD 0 [])
        (keyForCol ([" Title ", "Author"].map normalizeHeader) 1) =
      some (jsTrim (["x"].getD 1 "")) := by
  have h := C3_rows_to_records [" Title ", "Author"] [["x"]]
    (by
      intro i1 i2 h1 h2 heq
      simp only [List.length_cons, List.length_nil] at h1 h2
      interval_cases i1 <;> interval_cases i2 <;>
        first
          | rfl
          | exact absurd heq (by decide))
    (by
      intro i hi
      simp only [List.length_cons, List.length_nil] at hi
      interval_cases i <;> decide)
  have h2 := h.2.2 0 ((rowsToObjects [[" Title ", "Author"], ["x"]]).getD 0 []) (by decide)
  exact ⟨h2.1, h2.2 ["x"] (by decide) 0 (by decide), h2.2 ["x"] (by decide) 1 (by decide)⟩

end LibrarySearch
